import Mathlib

set_option maxHeartbeats 1000000
set_option maxRecDepth 100000

/-
Verification development for the Myelin paper tracker server (src/server.py).

The file embeds the task-update reconciliation core of the `chat` endpoint,
the `auto_adjust` scheduler and the `update_task` PATCH handler as executable
Lean definitions, and proves or refutes the frozen specification claims
about them.

Modelling conventions:
  - JSON values decoded by `json.loads` are the inductive `JValue`; Python
    dict lookups with defaults are `jgetD`; `dict.get(key)` (default `None`)
    is `jgetN`.  Duplicate object keys resolve to the last occurrence, as in
    Python.
  - Python exceptions that escape the per-directive `except
    json.JSONDecodeError` handler are modelled with `Except String`; the
    outer `except Exception` handler of `chat` is the final `match` in
    `chatHandler`.
  - Clock effects are parameters: `daysPassed` stands for
    `(datetime.now() - project_start).days`, `nowTs` for
    `int(datetime.now().timestamp())`, `nowIso` for
    `datetime.now().isoformat()`.  The external model call is the
    `modelReply : Except String String` parameter, and the resolved
    credential (environment variable or `~/.env` line) is
    `apiKey : Option String`.
  - The JSON number grammar is restricted to integers; the directive
    protocol of the system prompt only ever uses integer weeks.
  - The `print` diagnostics of the directive loop are modelled by the
    `LogEntry` inductive, so that what the code does and does not log is
    visible in the embedding.
-/

/-- JSON values as produced by `json.loads`. -/
inductive JValue where
  | null
  | bool (b : Bool)
  | num (n : Int)
  | str (s : String)
  | arr (elems : List JValue)
  | obj (kvs : List (String × JValue))

/-- Python dict lookup on a decoded JSON object: the last binding of a key
wins, absent keys give `none`. -/
def jlookup (kvs : List (String × JValue)) (k : String) : Option JValue :=
  kvs.foldl (fun acc p => if p.1 = k then some p.2 else acc) none

/-- Python `update.get(k, d)` on a decoded JSON object. -/
def jgetD (kvs : List (String × JValue)) (k : String) (d : JValue) : JValue :=
  (jlookup kvs k).getD d

/-- Python `update.get(k)` on a decoded JSON object: absent keys give Python `None`,
modelled as JSON null. -/
def jgetN (kvs : List (String × JValue)) (k : String) : JValue :=
  (jlookup kvs k).getD JValue.null

/-- Python truthiness of a JSON value. -/
def pyTruthy : JValue → Bool
  | .null => false
  | .bool b => b
  | .num n => decide (n ≠ 0)
  | .str s => decide (s ≠ "")
  | .arr elems => !elems.isEmpty
  | .obj kvs => !kvs.isEmpty

/-- Python whitespace characters recognised by `str.strip` and by the `\s`
class of the directive-extraction pattern (ASCII subset). -/
def isPyWS (c : Char) : Bool :=
  c = ' ' || c = '\t' || c = '\n' || c = '\x0d' || c = '\x0b' || c = '\x0c'

/-- Python `str.strip()` on a character list. -/
def pyStripChars (cs : List Char) : List Char :=
  ((cs.dropWhile isPyWS).reverse.dropWhile isPyWS).reverse

/-- Value of a nonempty all-digit character list. -/
def digitsVal (cs : List Char) : Option Nat :=
  if cs = [] then none
  else cs.foldl
    (fun acc c => acc.bind fun n =>
      if c.isDigit then some (n * 10 + (c.toNat - 48)) else none)
    (some 0)

/-- Python `int(s)` on a string: strips whitespace, accepts an optional sign
followed by digits, raises `ValueError` otherwise. -/
def pyIntChars (cs : List Char) : Except String Int :=
  match pyStripChars cs with
  | [] => .error "ValueError: invalid literal for int() with base 10"
  | c :: rest =>
    if c = '-' then
      match digitsVal rest with
      | some n => .ok (-(n : Int))
      | none => .error "ValueError: invalid literal for int() with base 10"
    else if c = '+' then
      match digitsVal rest with
      | some n => .ok (n : Int)
      | none => .error "ValueError: invalid literal for int() with base 10"
    else
      match digitsVal (c :: rest) with
      | some n => .ok (n : Int)
      | none => .error "ValueError: invalid literal for int() with base 10"

/-- Python `int(v)` on a JSON value: numbers pass through, booleans coerce,
numeric strings parse, everything else raises. -/
def pyInt : JValue → Except String Int
  | .num n => .ok n
  | .bool b => .ok (if b then 1 else 0)
  | .str s => pyIntChars s.toList
  | .null => .error "TypeError: int() argument is None"
  | .arr _ => .error "TypeError: int() argument is a list"
  | .obj _ => .error "TypeError: int() argument is a dict"

/-- A task record of the project store (src/server.py `get_default_data`), named `PTask`
because core Lean already has a `Task` type.  `id`, `week` and `completed` are typed as the core maintains them; the
fields the core only stores verbatim keep their JSON value. -/
structure PTask where
  id : String
  title : JValue
  week : Int
  completed : Bool
  priority : JValue
  figure : JValue
  notes : JValue

/-- One chat history entry. -/
structure ChatTurn where
  role : String
  content : String
  timestamp : String

/-- The slice of the persisted project document the chat path reads and
writes. -/
structure ProjectData where
  tasks : List PTask
  chat_history : List ChatTurn

/-- The JSON body returned by the `chat` endpoint. -/
structure ChatResponse where
  response : String
  task_updates : List JValue
  error : Bool

/-- The `print` diagnostics emitted by the directive loop of `chat`. -/
inductive LogEntry where
  | moved (task_id new_week : JValue)
  | markedDone (task_id : JValue)
  | added (title : JValue)
  | deleted (task_id : JValue)
  | parseFailed (body : String)

/-- The comparison `task["id"] == task_id` where `task_id` is an arbitrary JSON value: a
Python string only ever equals another string. -/
def idEq (task_id : JValue) (t : PTask) : Bool :=
  match task_id with
  | .str s => decide (t.id = s)
  | _ => false

/-- The move branch (src/server.py lines 330-334): walk the task list, set
the `week` of the first task whose id matches and stop.  `int(new_week)` is
only evaluated at the first match, so an uncoercible `new_week` with an
unresolvable `task_id` raises nothing. -/
def moveLoop (task_id new_week : JValue) :
    List PTask → Except String (List PTask × List LogEntry)
  | [] => .ok ([], [])
  | t :: rest =>
    if idEq task_id t then
      match pyInt new_week with
      | .error e => .error e
      | .ok w => .ok ({ t with week := w } :: rest, [.moved task_id new_week])
    else
      match moveLoop task_id new_week rest with
      | .error e => .error e
      | .ok (rest2, lg) => .ok (t :: rest2, lg)

/-- The complete branch (src/server.py lines 339-343): mark the first task
whose id matches as completed and stop. -/
def completeFirst (task_id : JValue) : List PTask → List PTask × List LogEntry
  | [] => ([], [])
  | t :: rest =>
    if idEq task_id t then
      ({ t with completed := true } :: rest, [.markedDone task_id])
    else
      let r := completeFirst task_id rest
      (t :: r.1, r.2)

/-- One iteration body of the directive-application chain of `chat`
(src/server.py lines 323-363): dispatch on the `action` field.  A directive
that decoded to a non-object raises `AttributeError` at `update.get`;
unrecognized actions fall through silently. -/
def applyUpdate (currentWeek nowTs : Int) (tasks : List PTask) (update : JValue) :
    Except String (List PTask × List LogEntry) :=
  match update with
  | .obj kvs =>
    match jgetD kvs "action" (.str "") with
    | .str a =>
      if a = "move" then
        let task_id := jgetN kvs "task_id"
        let new_week := jgetN kvs "new_week"
        if pyTruthy task_id && pyTruthy new_week then
          moveLoop task_id new_week tasks
        else .ok (tasks, [])
      else if a = "complete" then
        let task_id := jgetN kvs "task_id"
        if pyTruthy task_id then .ok (completeFirst task_id tasks)
        else .ok (tasks, [])
      else if a = "add" then
        match pyInt (jgetD kvs "week" (.num currentWeek)) with
        | .error e => .error e
        | .ok w =>
          let newTask : PTask :=
            { id := "task-" ++ toString nowTs
              title := jgetD kvs "title" (.str "New Task")
              week := w
              completed := false
              priority := jgetD kvs "priority" (.str "medium")
              figure := jgetN kvs "figure"
              notes := jgetD kvs "reason" (.str "") }
          .ok (tasks ++ [newTask], [.added newTask.title])
      else if a = "delete" then
        let task_id := jgetN kvs "task_id"
        if pyTruthy task_id then
          .ok (tasks.filter (fun t => !idEq task_id t), [.deleted task_id])
        else .ok (tasks, [])
      else .ok (tasks, [])
    | _ => .ok (tasks, [])
  | _ => .error "AttributeError: update has no attribute get"

/-- JSON whitespace skipped by the decoder. -/
def isJsonWS (c : Char) : Bool :=
  c = ' ' || c = '\t' || c = '\n' || c = '\x0d'

/-- Drop leading JSON whitespace. -/
def skipJsonWS : List Char → List Char
  | [] => []
  | c :: cs => if isJsonWS c then skipJsonWS cs else c :: cs

/-- Drop an expected literal from the front of the input. -/
def dropLit : List Char → List Char → Option (List Char)
  | [], cs => some cs
  | p :: ps, c :: cs => if p = c then dropLit ps cs else none
  | _ :: _, [] => none

/-- Decoded form of a JSON string escape. -/
def escChar (e : Char) : Option Char :=
  if e = '"' then some '"'
  else if e = '\\' then some '\\'
  else if e = '/' then some '/'
  else if e = 'n' then some '\n'
  else if e = 't' then some '\t'
  else if e = 'r' then some '\x0d'
  else if e = 'b' then some '\x08'
  else if e = 'f' then some '\x0c'
  else none

/-- Body of a JSON string, after the opening quote: returns the decoded
characters and the input following the closing quote.  `\uXXXX` escapes are
not modelled. -/
def jstrBody : List Char → Option (List Char × List Char)
  | [] => none
  | '"' :: cs => some ([], cs)
  | '\\' :: [] => none
  | '\\' :: e :: cs =>
    match escChar e with
    | none => none
    | some d => (jstrBody cs).map (fun p => (d :: p.1, p.2))
  | c :: cs =>
    if c.toNat < 32 then none
    else (jstrBody cs).map (fun p => (c :: p.1, p.2))

/-- A JSON natural number literal: digits without a redundant leading zero. -/
def jnumNat (cs : List Char) : Option (Nat × List Char) :=
  let ds := cs.takeWhile (fun c => c.isDigit)
  let rest := cs.dropWhile (fun c => c.isDigit)
  match ds with
  | [] => none
  | d :: more =>
    if d = '0' ∧ more ≠ [] then none
    else
      match digitsVal ds with
      | some n => some (n, rest)
      | none => none

/-- A JSON integer literal with optional minus sign.  Fractions and
exponents are not modelled (the directive protocol uses integers); an input
containing them fails to decode where Python would produce a float. -/
def jnum : List Char → Option (Int × List Char)
  | '-' :: rest => (jnumNat rest).map (fun p => (-(p.1 : Int), p.2))
  | cs => (jnumNat cs).map (fun p => ((p.1 : Int), p.2))

/-- Opening brace character, written by code point. -/
def lbrace : Char := Char.ofNat 123

/-- Closing brace character, written by code point. -/
def rbrace : Char := Char.ofNat 125

/-- Recursion mode of the JSON decoder: a single value, the members of an
object, or the elements of an array. -/
inductive PMode where
  | val
  | mems (acc : List (String × JValue))
  | elems (acc : List JValue)

/-- Fuel-indexed JSON decoder implementing the fragment of `json.loads`
exercised by directive bodies.  Fuel one larger than the input length always
suffices, since every recursive call first consumes input. -/
def jparseF : Nat → PMode → List Char → Option (JValue × List Char)
  | 0, _, _ => none
  | fuel + 1, .val, cs =>
    match skipJsonWS cs with
    | [] => none
    | c :: rest =>
      if c = lbrace then
        match skipJsonWS rest with
        | d :: rest2 =>
          if d = rbrace then some (.obj [], rest2)
          else jparseF fuel (.mems []) rest
        | [] => none
      else if c = '[' then
        match skipJsonWS rest with
        | d :: rest2 =>
          if d = ']' then some (.arr [], rest2)
          else jparseF fuel (.elems []) rest
        | [] => none
      else if c = '"' then
        match jstrBody rest with
        | some (body, rest2) => some (.str (String.mk body), rest2)
        | none => none
      else if c = 'n' then
        match dropLit "ull".toList rest with
        | some rest2 => some (.null, rest2)
        | none => none
      else if c = 't' then
        match dropLit "rue".toList rest with
        | some rest2 => some (.bool true, rest2)
        | none => none
      else if c = 'f' then
        match dropLit "alse".toList rest with
        | some rest2 => some (.bool false, rest2)
        | none => none
      else
        match jnum (c :: rest) with
        | some (n, rest2) => some (.num n, rest2)
        | none => none
  | fuel + 1, .mems acc, cs =>
    match skipJsonWS cs with
    | '"' :: rest =>
      match jstrBody rest with
      | none => none
      | some (key, rest2) =>
        match skipJsonWS rest2 with
        | ':' :: rest3 =>
          match jparseF fuel .val rest3 with
          | none => none
          | some (v, rest4) =>
            match skipJsonWS rest4 with
            | ',' :: rest5 =>
              jparseF fuel (.mems (acc ++ [(String.mk key, v)])) rest5
            | d :: rest5 =>
              if d = rbrace then
                some (.obj (acc ++ [(String.mk key, v)]), rest5)
              else none
            | [] => none
        | _ => none
    | _ => none
  | fuel + 1, .elems acc, cs =>
    match jparseF fuel .val cs with
    | none => none
    | some (v, rest) =>
      match skipJsonWS rest with
      | ',' :: rest2 => jparseF fuel (.elems (acc ++ [v])) rest2
      | ']' :: rest2 => some (.arr (acc ++ [v]), rest2)
      | _ => none

/-- Python `json.loads` on a whole string: decode one value and require only
whitespace after it. -/
def jloads (s : String) : Option JValue :=
  let cs := s.toList
  match jparseF (cs.length + 1) .val cs with
  | some (v, rest) => if skipJsonWS rest = [] then some v else none
  | none => none

/-- The decode step `json.loads(match.strip())`: the decode attempted on each extracted
directive body (src/server.py line 320); `none` models
`json.JSONDecodeError`. -/
def decodeCandidate (m : String) : Option JValue :=
  jloads (String.mk (pyStripChars m.toList))

/-- Is `pat` a prefix of the input? -/
def hasPre : List Char → List Char → Bool
  | [], _ => true
  | _ :: _, [] => false
  | p :: ps, c :: cs => p = c && hasPre ps cs

/-- Split the input at the first occurrence of `pat`: returns the characters
before the occurrence and the characters after it. -/
def splitAtSub (pat : List Char) : List Char → Option (List Char × List Char)
  | [] => if pat.isEmpty then some ([], []) else none
  | c :: cs =>
    if hasPre pat (c :: cs) then some ([], (c :: cs).drop pat.length)
    else
      match splitAtSub pat cs with
      | some (pre, post) => some (c :: pre, post)
      | none => none

/-- The opening fence of a directive block. -/
def openFence : List Char := "```task_update".toList

/-- The closing fence of a directive block. -/
def closeFence : List Char := "```".toList

/-- Scanner realising `re.findall` of the pattern described below, with `re.DOTALL`, (src/server.py lines 315-316): find an opening fence, drop the
greedy whitespace run after it, take the lazily matched body up to the first
closing fence (excluding one newline just before it), and continue after the
match.  An opening fence without a later closing fence matches nothing, and
scanning ends, since every later opening fence would contain one. -/
def extractBlocksAux : Nat → List Char → List (List Char)
  | 0, _ => []
  | fuel + 1, s =>
    match splitAtSub openFence s with
    | none => []
    | some (_, rest) =>
      let afterWs := rest.dropWhile isPyWS
      match splitAtSub closeFence afterWs with
      | none => []
      | some (body0, rest2) =>
        let body := if body0.getLast? = some '\n' then body0.dropLast else body0
        body :: extractBlocksAux fuel rest2

/-- All directive bodies found in a model reply, in order of appearance. -/
def findTaskUpdateBlocks (text : String) : List String :=
  (extractBlocksAux (text.toList.length + 1) text.toList).map String.mk

/-- The substitution step of `chat`: `re.sub` with the directive-block
pattern and an empty replacement, that is, delete every directive block span, keeping the text between matches. -/
def removeBlocksAux : Nat → List Char → List Char
  | 0, s => s
  | fuel + 1, s =>
    match splitAtSub openFence s with
    | none => s
    | some (pre, rest) =>
      let afterWs := rest.dropWhile isPyWS
      match splitAtSub closeFence afterWs with
      | none => s
      | some (_, rest2) => pre ++ removeBlocksAux fuel rest2

/-- The user-visible reply: directive blocks removed, then `str.strip()`
(src/server.py lines 373-374). -/
def stripTaskUpdateBlocks (text : String) : String :=
  String.mk (pyStripChars (removeBlocksAux (text.toList.length + 1) text.toList))

/-- The parser stage of the reconciliation core, as the spec factors it:
fenced-block extraction followed by independent decoding of each candidate,
dropping candidates that fail to decode. -/
def parseDirectives (text : String) : List JValue :=
  (findTaskUpdateBlocks text).filterMap decodeCandidate

/-- The directive loop of `chat` (src/server.py lines 318-367): decode each
match, append it to `task_updates`, apply it; a decode failure logs and
skips just that candidate, while any other exception aborts the whole loop.
Returns the final task list, the collected `task_updates`, and the log. -/
def processUpdates (currentWeek nowTs : Int) :
    List String → List PTask → Except String (List PTask × List JValue × List LogEntry)
  | [], tasks => .ok (tasks, [], [])
  | m :: rest, tasks =>
    match decodeCandidate m with
    | none =>
      match processUpdates currentWeek nowTs rest tasks with
      | .error e => .error e
      | .ok (ts, us, lg) => .ok (ts, us, .parseFailed m :: lg)
    | some update =>
      match applyUpdate currentWeek nowTs tasks update with
      | .error e => .error e
      | .ok (tasks2, lg1) =>
        match processUpdates currentWeek nowTs rest tasks2 with
        | .error e => .error e
        | .ok (ts, us, lg) => .ok (ts, update :: us, lg1 ++ lg)

/-- The computation `current_week = max(1, min(8, days_passed // 7 + 1))` (src/server.py
lines 189 and 248). -/
def currentWeekOf (daysPassed : Int) : Int :=
  max 1 (min 8 (daysPassed.fdiv 7 + 1))

/-- The fixed diagnostic returned when no credential resolves
(src/server.py lines 289-294). -/
def apiKeyMissingMsg : String :=
  "API key not found. Please set ANTHROPIC_API_KEY in your ~/.env file."

/-- The diagnostic produced by the outer exception handler of `chat`
(src/server.py lines 382-389). -/
def modelErrorMsg (e : String) : String :=
  "Error communicating with AI: " ++ e

/-- The `chat` endpoint after the model-facing context has been built
(src/server.py lines 276-389).  The credential resolution, the external
model call and the clock are parameters; the returned `ProjectData` is the
state persisted on disk after the request, which is the input state whenever
`save_project_data` is not reached. -/
def chatHandler (daysPassed nowTs : Int) (nowIso userMessage : String)
    (apiKey : Option String) (modelReply : Except String String)
    (data : ProjectData) : ChatResponse × ProjectData :=
  let currentWeek := currentWeekOf daysPassed
  match apiKey with
  | none =>
    ({ response := apiKeyMissingMsg, task_updates := [], error := true }, data)
  | some _ =>
    match modelReply with
    | .error e =>
      ({ response := modelErrorMsg e, task_updates := [], error := true }, data)
    | .ok assistantMessage =>
      let hist := data.chat_history ++
        [{ role := "user", content := userMessage, timestamp := nowIso },
         { role := "assistant", content := assistantMessage, timestamp := nowIso }]
      match processUpdates currentWeek nowTs (findTaskUpdateBlocks assistantMessage) data.tasks with
      | .error e =>
        ({ response := modelErrorMsg e, task_updates := [], error := true }, data)
      | .ok (tasks2, us, _) =>
        ({ response := stripTaskUpdateBlocks assistantMessage,
           task_updates := us, error := false },
         { tasks := tasks2, chat_history := hist })

/-- The lookup `priority_order.get(t["priority"], 3)` (src/server.py lines 204-205):
rank of a priority value, defaulting to 3 for anything outside the enum. -/
def priorityRank (p : JValue) : Int :=
  match p with
  | .str s =>
    if s = "critical" then 0
    else if s = "high" then 1
    else if s = "medium" then 2
    else 3
  | _ => 3

/-- The sort key comparison of the redistribution step: Python tuple order
on `(week, priority rank)`. -/
def keyLe (a b : PTask) : Bool :=
  decide (a.week < b.week ∨
    (a.week = b.week ∧ priorityRank a.priority ≤ priorityRank b.priority))

/-- Set the `week` of the first task with the given id (the inner
find-and-mutate loop of the redistribution step, src/server.py lines
213-220). -/
def setFirstWeek (tid : String) (w : Int) : List PTask → List PTask
  | [] => []
  | t :: rest =>
    if t.id = tid then { t with week := w } :: rest
    else t :: setFirstWeek tid w rest

/-- The redistribution walk of `auto_adjust` (src/server.py lines 209-220):
for each id of the sorted incomplete working set, find the first task with
that id in the main list; when found, first advance the week (capped at 8)
if the per-week quota is full, then assign the week and count the task. -/
def assignLoop (tasksPerWeek : Int) :
    List String → List PTask → Int → Int → List PTask
  | [], tasks, _, _ => tasks
  | tid :: rest, tasks, week, count =>
    if tasks.any (fun t => decide (t.id = tid)) then
      if count ≥ tasksPerWeek ∧ week < 8 then
        assignLoop tasksPerWeek rest (setFirstWeek tid (week + 1) tasks) (week + 1) 1
      else
        assignLoop tasksPerWeek rest (setFirstWeek tid week tasks) week (count + 1)
    else
      assignLoop tasksPerWeek rest tasks week count

/-- The endpoint body `auto_adjust` (src/server.py lines 180-223) on the task list:
`daysPassed` is `(datetime.now() - project_start).days`.  Overdue incomplete
tasks are pulled forward to the current week, then all incomplete tasks are
stably sorted by `(week, priority rank)` and reassigned weeks in quota-sized
groups starting at the current week, never advancing past week 8. -/
def autoAdjust (daysPassed : Int) (tasks : List PTask) : List PTask :=
  let currentWeek := currentWeekOf daysPassed
  let tasks1 := tasks.map fun t =>
    if t.completed = false ∧ t.week < currentWeek then { t with week := currentWeek } else t
  let incomplete := tasks1.filter fun t =>
    !t.completed && decide (t.week ≥ currentWeek)
  let weeksRemaining : Int := 8 - currentWeek + 1
  if weeksRemaining > 0 ∧ incomplete.length > 0 then
    let sorted := incomplete.mergeSort keyLe
    let tasksPerWeek : Int := max 3 ((incomplete.length : Int).fdiv weeksRemaining)
    assignLoop tasksPerWeek (sorted.map PTask.id) tasks1 currentWeek 0
  else tasks1

/-- Partial task fields carried by a PATCH body. -/
structure PartialTask where
  id : Option String
  title : Option JValue
  week : Option Int
  completed : Option Bool
  priority : Option JValue
  figure : Option JValue
  notes : Option JValue

/-- The merge `task.update(updates)`: field-wise merge of a partial body into a task. -/
def mergeTask (t : PTask) (u : PartialTask) : PTask :=
  { id := u.id.getD t.id
    title := u.title.getD t.title
    week := u.week.getD t.week
    completed := u.completed.getD t.completed
    priority := u.priority.getD t.priority
    figure := u.figure.getD t.figure
    notes := u.notes.getD t.notes }

/-- Find-and-merge loop of the PATCH handler: merge into the first task
whose id matches, returning the new list and the merged task. -/
def patchLoop (tid : String) (u : PartialTask) :
    List PTask → Option (List PTask × PTask)
  | [] => none
  | t :: rest =>
    if t.id = tid then some (mergeTask t u :: rest, mergeTask t u)
    else
      match patchLoop tid u rest with
      | some (rest2, tk) => some (t :: rest2, tk)
      | none => none

/-- The handler `update_task` (src/server.py lines 165-177): the PATCH /api/task/<id>
handler.  After the loop, the response echoes the Python loop variable
`task`: the merged task when a match was found, otherwise the last task of
the list; with an empty task list the variable was never bound and the
handler raises `NameError`. -/
def update_task (tasks : List PTask) (tid : String) (u : PartialTask) :
    Except String (List PTask × PTask) :=
  match patchLoop tid u tasks with
  | some (ts, tk) => .ok (ts, tk)
  | none =>
    match tasks.getLast? with
    | some tk => .ok (tasks, tk)
    | none => .error "NameError: name task is not defined"

/-- Concrete incomplete task used by witnesses. -/
def taskA : PTask :=
  { id := "a", title := .str "A", week := 1, completed := false,
    priority := .str "high", figure := .null, notes := .str "" }

/-- Second concrete incomplete task used by witnesses. -/
def taskB : PTask :=
  { id := "b", title := .str "B", week := 5, completed := false,
    priority := .str "low", figure := .null, notes := .str "" }

/-- A completed task whose week already exceeds the project range. -/
def taskDone99 : PTask :=
  { id := "z", title := .str "Z", week := 99, completed := true,
    priority := .str "high", figure := .null, notes := .str "" }

/-- A task whose id happens to equal the token the add branch synthesizes at
timestamp 100. -/
def taskT100 : PTask :=
  { id := "task-100", title := .str "T", week := 1, completed := false,
    priority := .str "medium", figure := .null, notes := .str "" }

/-- A PATCH body carrying no fields. -/
def emptyPatch : PartialTask :=
  { id := none, title := none, week := none, completed := none,
    priority := none, figure := none, notes := none }

/-- The week-range invariant of the data model: every task week lies in the
project range 1..TOTAL_WEEKS. -/
def WeekRangeInv (tasks : List PTask) : Prop :=
  ∀ t ∈ tasks, 1 ≤ t.week ∧ t.week ≤ 8

instance (tasks : List PTask) : Decidable (WeekRangeInv tasks) := by
  unfold WeekRangeInv; infer_instance

/-- Sample reply with a malformed directive body between two well-formed
ones. -/
def resilientSample : String :=
  "A ```task_update\n\x7b\"action\":\"complete\",\"task_id\":\"a\"\x7d\n``` B ```task_update\nnope\n``` C ```task_update\n\x7b\"action\":\"delete\",\"task_id\":\"b\"\x7d\n``` D"

/-- The task the add branch appends at timestamp 7 and current week 1 with
all optional fields absent. -/
def addedTask7 : PTask :=
  { id := "task-7", title := .str "New Task", week := 1, completed := false,
    priority := .str "medium", figure := .null, notes := .str "" }

/-- The store used by the chat-level counterexample. -/
def chatDataA : ProjectData := { tasks := [taskA], chat_history := [] }

/-- A model reply carrying a move with non-numeric `new_week` followed by a
well-formed complete. -/
def badMoveReply : String :=
  "```task_update\n\x7b\"action\":\"move\",\"task_id\":\"a\",\"new_week\":\"soon\"\x7d\n``` ```task_update\n\x7b\"action\":\"complete\",\"task_id\":\"a\"\x7d\n```"

/-
Helper lemmas.
-/

theorem modelErrorMsg_ne_empty (e : String) : modelErrorMsg e ≠ "" := by
  intro h
  have h2 : (modelErrorMsg e).length = 0 := by rw [h]; rfl
  simp only [modelErrorMsg, String.length_append] at h2
  have h3 : ("Error communicating with AI: " : String).length = 29 := rfl
  omega

theorem patchLoop_eq_none (tid : String) (u : PartialTask) :
    ∀ tasks : List PTask, (∀ t ∈ tasks, t.id ≠ tid) →
      patchLoop tid u tasks = none := by
  intro tasks
  induction tasks with
  | nil => intro _; rfl
  | cons t rest ih =>
    intro h
    have ht : t.id ≠ tid := h t (List.mem_cons_self t rest)
    have hr := ih (fun s hs => h s (List.mem_cons_of_mem t hs))
    simp [patchLoop, ht, hr]

theorem completeFirst_nomatch (tid : JValue) :
    ∀ tasks : List PTask, (∀ t ∈ tasks, idEq tid t = false) →
      completeFirst tid tasks = (tasks, []) := by
  intro tasks
  induction tasks with
  | nil => intro _; rfl
  | cons t rest ih =>
    intro h
    have ht := h t (List.mem_cons_self t rest)
    have hr := ih (fun s hs => h s (List.mem_cons_of_mem t hs))
    simp [completeFirst, ht, hr]

theorem idEq_set_completed (tid : JValue) (t : PTask) :
    idEq tid { t with completed := true } = idEq tid t := by
  cases tid <;> rfl

theorem completeFirst_fst_idem (tid : JValue) :
    ∀ tasks : List PTask,
      (completeFirst tid (completeFirst tid tasks).1).1 =
        (completeFirst tid tasks).1 := by
  intro tasks
  induction tasks with
  | nil => rfl
  | cons t rest ih =>
    by_cases h : idEq tid t = true
    · simp [completeFirst, h, idEq_set_completed]
    · simp [completeFirst, h, ih]

theorem moveLoop_err (tid nw : JValue) (e : String)
    (hpy : pyInt nw = .error e) :
    ∀ tasks : List PTask, (∃ t ∈ tasks, idEq tid t = true) →
      moveLoop tid nw tasks = .error e := by
  intro tasks
  induction tasks with
  | nil => intro h; rcases h with ⟨t, ht, _⟩; simp at ht
  | cons t rest ih =>
    intro h
    by_cases hid : idEq tid t = true
    · simp [moveLoop, hid, hpy]
    · rcases h with ⟨s, hs, hseq⟩
      rcases List.mem_cons.mp hs with h1 | h1
      · subst h1; exact absurd hseq hid
      · have h2 := ih ⟨s, h1, hseq⟩
        simp [moveLoop, hid, h2]

theorem moveLoop_ok_mem (tid nw : JValue) :
    ∀ (tasks tasks2 : List PTask) (lg : List LogEntry),
      moveLoop tid nw tasks = .ok (tasks2, lg) →
      ∀ t2 ∈ tasks2, t2 ∈ tasks ∨
        ∃ k, pyInt nw = .ok k ∧ ∃ t ∈ tasks, t2 = { t with week := k } := by
  intro tasks
  induction tasks with
  | nil =>
    intro tasks2 lg h t2 ht2
    simp [moveLoop] at h
    rcases h with ⟨h1, _⟩
    subst h1
    simp at ht2
  | cons t rest ih =>
    intro tasks2 lg h t2 ht2
    by_cases hid : idEq tid t = true
    · cases hpy : pyInt nw with
      | error e => rw [moveLoop] at h; simp [hid, hpy] at h
      | ok k =>
        rw [moveLoop] at h
        simp [hid, hpy] at h
        rcases h with ⟨h1, _⟩
        subst h1
        rcases List.mem_cons.mp ht2 with h3 | h3
        · exact Or.inr ⟨k, rfl, t, List.mem_cons_self t rest, h3⟩
        · exact Or.inl (List.mem_cons_of_mem t h3)
    · cases hr : moveLoop tid nw rest with
      | error e => rw [moveLoop] at h; simp [hid, hr] at h
      | ok p =>
        obtain ⟨rest2, lg2⟩ := p
        rw [moveLoop] at h
        simp [hid, hr] at h
        rcases h with ⟨h1, _⟩
        subst h1
        rcases List.mem_cons.mp ht2 with h3 | h3
        · subst h3; exact Or.inl (List.mem_cons_self t2 rest)
        · rcases ih rest2 lg2 hr t2 h3 with h4 | ⟨k, hk, t3, ht3, he⟩
          · exact Or.inl (List.mem_cons_of_mem t h4)
          · exact Or.inr ⟨k, hk, t3, List.mem_cons_of_mem t ht3, he⟩

/-
Claim theorems.
-/

/-- Claim C9 (confirmed): for every store and user message, when no
credential resolves or the model call fails, `chat` returns a response with
`error = true`, a non-empty diagnostic text and an empty directive list; the
persisted store — in particular the chat history length — is unchanged, and
the path returns a response object rather than raising. -/
theorem chat_failure_path_safe (days ts : Int) (iso msg : String)
    (data : ProjectData) :
    (∀ reply, chatHandler days ts iso msg none reply data =
      ({ response := apiKeyMissingMsg, task_updates := [], error := true },
       data)) ∧
    (∀ key e, chatHandler days ts iso msg (some key) (.error e) data =
      ({ response := modelErrorMsg e, task_updates := [], error := true },
       data)) ∧
    apiKeyMissingMsg ≠ "" ∧ ∀ e, modelErrorMsg e ≠ "" := by
  refine ⟨fun reply => rfl, fun key e => rfl, ?_, fun e => modelErrorMsg_ne_empty e⟩
  decide

/-- Claim C10 (confirmed): PATCH with an id matching no task modifies no
task; with a non-empty list it answers with the last task of the list, and
with an empty list the handler raises (`NameError` on the loop variable). -/
theorem update_task_unmatched (tasks : List PTask) (tid : String)
    (u : PartialTask) (hno : ∀ t ∈ tasks, t.id ≠ tid) :
    (tasks = [] →
      update_task tasks tid u = .error "NameError: name task is not defined") ∧
    (tasks ≠ [] →
      ∃ tk, tasks.getLast? = some tk ∧
        update_task tasks tid u = .ok (tasks, tk)) := by
  have hp := patchLoop_eq_none tid u tasks hno
  constructor
  · intro he; subst he; rfl
  · intro hne
    have hs : tasks.getLast?.isSome := List.getLast?_isSome.mpr hne
    obtain ⟨tk, htk⟩ := Option.isSome_iff_exists.mp hs
    exact ⟨tk, htk, by simp [update_task, hp, htk]⟩

/-- Witness for `update_task_unmatched` at concrete inputs. -/
theorem update_task_unmatched_witness :
    (update_task [] "zz" emptyPatch =
      .error "NameError: name task is not defined") ∧
    ∃ tk, [taskA, taskB].getLast? = some tk ∧
      update_task [taskA, taskB] "zz" emptyPatch = .ok ([taskA, taskB], tk) :=
  ⟨(update_task_unmatched [] "zz" emptyPatch (by simp)).1 rfl,
   (update_task_unmatched [taskA, taskB] "zz" emptyPatch (by decide)).2 (by simp)⟩

/-- Claim C5 (confirmed): for every store, applying a complete or delete
directive twice gives the same end state as applying it once, and both
applications are no-op successes rather than errors. -/
theorem complete_delete_idem (cw ts : Int) (kvs : List (String × JValue))
    (tasks : List PTask)
    (h : jgetD kvs "action" (.str "") = .str "complete" ∨
         jgetD kvs "action" (.str "") = .str "delete") :
    ∃ tasks2 lg lg2,
      applyUpdate cw ts tasks (.obj kvs) = .ok (tasks2, lg) ∧
      applyUpdate cw ts tasks2 (.obj kvs) = .ok (tasks2, lg2) := by
  rcases h with h | h
  · by_cases ht : pyTruthy (jgetN kvs "task_id") = true
    · refine ⟨(completeFirst (jgetN kvs "task_id") tasks).1,
        (completeFirst (jgetN kvs "task_id") tasks).2,
        (completeFirst (jgetN kvs "task_id")
          (completeFirst (jgetN kvs "task_id") tasks).1).2, ?_, ?_⟩
      · simp [applyUpdate, h, ht]
      · have h2 := completeFirst_fst_idem (jgetN kvs "task_id") tasks
        simp [applyUpdate, h, ht]
        exact Prod.ext h2 rfl
    · exact ⟨tasks, [], [], by simp [applyUpdate, h, ht],
        by simp [applyUpdate, h, ht]⟩
  · by_cases ht : pyTruthy (jgetN kvs "task_id") = true
    · refine ⟨tasks.filter (fun t => !idEq (jgetN kvs "task_id") t),
        [.deleted (jgetN kvs "task_id")], [.deleted (jgetN kvs "task_id")],
        ?_, ?_⟩
      · simp [applyUpdate, h, ht]
      · simp [applyUpdate, h, ht, List.filter_filter]
    · exact ⟨tasks, [], [], by simp [applyUpdate, h, ht],
        by simp [applyUpdate, h, ht]⟩

/-- Witness for `complete_delete_idem`: completing "a" twice. -/
theorem complete_delete_idem_witness :
    ∃ tasks2 lg lg2,
      applyUpdate 1 0 [taskA]
        (.obj [("action", .str "complete"), ("task_id", .str "a")]) =
        .ok (tasks2, lg) ∧
      applyUpdate 1 0 tasks2
        (.obj [("action", .str "complete"), ("task_id", .str "a")]) =
        .ok (tasks2, lg2) :=
  complete_delete_idem 1 0 [("action", .str "complete"), ("task_id", .str "a")]
    [taskA] (Or.inl rfl)

/-- Claim C8 (amended): a directive with an unrecognized action, and a
complete directive whose `task_id` resolves to no task, both leave the store
unchanged and raise nothing — but nothing is logged and no SkipReason record
of any kind is produced; the directive still enters `task_updates` exactly
like an applied one. -/
theorem skip_is_silent (cw ts : Int) (tasks : List PTask)
    (kvs : List (String × JValue)) :
    (∀ a, jgetD kvs "action" (.str "") = .str a →
      a ≠ "move" → a ≠ "complete" → a ≠ "add" → a ≠ "delete" →
      applyUpdate cw ts tasks (.obj kvs) = .ok (tasks, [])) ∧
    (jgetD kvs "action" (.str "") = .str "complete" →
      (∀ t ∈ tasks, idEq (jgetN kvs "task_id") t = false) →
      applyUpdate cw ts tasks (.obj kvs) = .ok (tasks, [])) := by
  constructor
  · intro a ha h1 h2 h3 h4
    simp [applyUpdate, ha, h1, h2, h3, h4]
  · intro ha hno
    by_cases ht : pyTruthy (jgetN kvs "task_id") = true
    · simp [applyUpdate, ha, ht, completeFirst_nomatch _ tasks hno]
    · simp [applyUpdate, ha, ht]

/-- Witness for `skip_is_silent` at concrete inputs. -/
theorem skip_is_silent_witness :
    applyUpdate 2 0 [taskA] (.obj [("action", .str "rename")]) =
      .ok ([taskA], []) ∧
    applyUpdate 2 0 [taskA]
      (.obj [("action", .str "complete"), ("task_id", .str "q")]) =
      .ok ([taskA], []) :=
  ⟨(skip_is_silent 2 0 [taskA] [("action", .str "rename")]).1 "rename" rfl
      (by decide) (by decide) (by decide) (by decide),
   (skip_is_silent 2 0 [taskA]
      [("action", .str "complete"), ("task_id", .str "q")]).2 rfl (by decide)⟩

/-- Counterexample to claim C8 as stated: an unrecognized action
("frobnicate") and a complete on `task_id` "does-not-exist" each produce an
empty log and an output indistinguishable from a plain no-op — there is no
SkipReason record with reason "unknown action" (or any other reason)
anywhere in the behaviour of the program. -/
theorem skip_counterexample :
    applyUpdate 1 0 [taskA]
      (.obj [("action", .str "frobnicate"), ("task_id", .str "a")]) =
      .ok ([taskA], []) ∧
    applyUpdate 1 0 [taskA]
      (.obj [("action", .str "complete"), ("task_id", .str "does-not-exist")]) =
      .ok ([taskA], []) :=
  ⟨rfl, rfl⟩

/-- Claim C6 (confirmed): the parse stage is a total function, and an input
whose fenced candidates are a well-formed body, a malformed body and another
well-formed body yields exactly the two well-formed directives in their
original order — the malformed candidate is dropped and scanning continues. -/
theorem parse_resilient (text : String) (b1 bm b2 : String) (v1 v2 : JValue)
    (hx : findTaskUpdateBlocks text = [b1, bm, b2])
    (h1 : decodeCandidate b1 = some v1)
    (hm : decodeCandidate bm = none)
    (h2 : decodeCandidate b2 = some v2) :
    parseDirectives text = [v1, v2] := by
  rw [parseDirectives, hx]
  simp [h1, hm, h2]

/-- Witness for `parse_resilient` on `resilientSample`. -/
theorem parse_resilient_witness :
    parseDirectives resilientSample =
      [.obj [("action", .str "complete"), ("task_id", .str "a")],
       .obj [("action", .str "delete"), ("task_id", .str "b")]] :=
  parse_resilient resilientSample
    "\x7b\"action\":\"complete\",\"task_id\":\"a\"\x7d" "nope"
    "\x7b\"action\":\"delete\",\"task_id\":\"b\"\x7d"
    (.obj [("action", .str "complete"), ("task_id", .str "a")])
    (.obj [("action", .str "delete"), ("task_id", .str "b")])
    rfl rfl rfl rfl

/-- Claim C4 (amended): an add directive succeeds whenever its `week` field
is absent or int-coercible, producing a task with `completed = false`,
`title`/`priority`/`notes` taken from the directive with defaults "New
Task"/"medium"/"" only when the field is absent (a present but invalid
priority is stored verbatim), `week` the coerced value (the caller-supplied
current week when absent), and `figure` the directive value or null; when
`week` is present but not int-coercible the directive raises instead. -/
theorem applyUpdate_add_fields (cw ts : Int) (tasks : List PTask)
    (kvs : List (String × JValue))
    (ha : jgetD kvs "action" (.str "") = .str "add") :
    (∀ w, pyInt (jgetD kvs "week" (.num cw)) = .ok w →
      applyUpdate cw ts tasks (.obj kvs) =
        .ok (tasks ++
          [{ id := "task-" ++ toString ts
             title := jgetD kvs "title" (.str "New Task")
             week := w
             completed := false
             priority := jgetD kvs "priority" (.str "medium")
             figure := jgetN kvs "figure"
             notes := jgetD kvs "reason" (.str "") }],
          [.added (jgetD kvs "title" (.str "New Task"))])) ∧
    (∀ e, pyInt (jgetD kvs "week" (.num cw)) = .error e →
      applyUpdate cw ts tasks (.obj kvs) = .error e) := by
  constructor
  · intro w hw
    simp [applyUpdate, ha, hw]
  · intro e he
    simp [applyUpdate, ha, he]

/-- Witness for `applyUpdate_add_fields`: an add with every optional field
absent uses all the defaults and the caller-supplied current week. -/
theorem applyUpdate_add_fields_witness :
    applyUpdate 3 7 [] (.obj [("action", .str "add")]) =
      .ok ([{ id := "task-7", title := .str "New Task", week := 3,
              completed := false, priority := .str "medium", figure := .null,
              notes := .str "" }], [.added (.str "New Task")]) :=
  (applyUpdate_add_fields 3 7 [] [("action", .str "add")] rfl).1 3 rfl

/-- Counterexample to claim C4 as stated: the invalid priority "urgent"
(outside the critical/high/medium/low enum) is stored verbatim instead of
defaulting to "medium", and an add whose `week` is the non-numeric string
"soon" raises instead of always succeeding. -/
theorem add_counterexample :
    applyUpdate 1 5 []
      (.obj [("action", .str "add"), ("title", .str "T"),
             ("priority", .str "urgent")]) =
      .ok ([{ id := "task-5", title := .str "T", week := 1, completed := false,
              priority := .str "urgent", figure := .null, notes := .str "" }],
           [.added (.str "T")]) ∧
    (JValue.str "urgent" ≠ JValue.str "medium") ∧
    ¬ ("urgent" = "critical" ∨ "urgent" = "high" ∨ "urgent" = "medium" ∨
       "urgent" = "low") ∧
    applyUpdate 1 5 [] (.obj [("action", .str "add"), ("week", .str "soon")]) =
      .error "ValueError: invalid literal for int() with base 10" :=
  ⟨rfl, by simp, by decide, rfl⟩

/-- Claim C3 (amended): move and add write the coerced integer week with no
clamping, so the week-range invariant is preserved exactly when the written
value lies in 1..8: under that hypothesis both directives preserve the
invariant, and without it they can violate it. -/
theorem applyUpdate_week_range (cw ts : Int) (tasks : List PTask)
    (kvs : List (String × JValue)) (hinv : WeekRangeInv tasks) :
    (jgetD kvs "action" (.str "") = .str "move" →
      (∀ k, pyInt (jgetN kvs "new_week") = .ok k → 1 ≤ k ∧ k ≤ 8) →
      ∀ tasks2 lg, applyUpdate cw ts tasks (.obj kvs) = .ok (tasks2, lg) →
        WeekRangeInv tasks2) ∧
    (jgetD kvs "action" (.str "") = .str "add" →
      (∀ k, pyInt (jgetD kvs "week" (.num cw)) = .ok k → 1 ≤ k ∧ k ≤ 8) →
      ∀ tasks2 lg, applyUpdate cw ts tasks (.obj kvs) = .ok (tasks2, lg) →
        WeekRangeInv tasks2) := by
  constructor
  · intro ha hk tasks2 lg h
    by_cases ht : (pyTruthy (jgetN kvs "task_id") &&
        pyTruthy (jgetN kvs "new_week")) = true
    · simp [applyUpdate, ha, ht] at h
      intro t2 ht2
      rcases moveLoop_ok_mem _ _ tasks tasks2 lg h t2 ht2 with
        h1 | ⟨k, hk2, t, _, he⟩
      · exact hinv t2 h1
      · have hb := hk k hk2
        rw [he]
        exact hb
    · simp [applyUpdate, ha, ht] at h
      rcases h with ⟨h1, _⟩
      subst h1
      exact hinv
  · intro ha hk tasks2 lg h
    cases hpy : pyInt (jgetD kvs "week" (.num cw)) with
    | error e => simp [applyUpdate, ha, hpy] at h
    | ok w =>
      simp [applyUpdate, ha, hpy] at h
      rcases h with ⟨h1, _⟩
      subst h1
      intro t2 ht2
      rcases List.mem_append.mp ht2 with h2 | h2
      · exact hinv t2 h2
      · simp at h2
        rw [h2]
        exact hk w hpy

/-- Witness for `applyUpdate_week_range`: moving "a" to week 2 keeps the
invariant. -/
theorem applyUpdate_week_range_witness :
    WeekRangeInv [{ taskA with week := 2 }] :=
  (applyUpdate_week_range 1 0 [taskA]
      [("action", .str "move"), ("task_id", .str "a"), ("new_week", .num 2)]
      (by decide)).1 rfl
    (fun k hk => by simp [jgetN, jlookup, pyInt] at hk; omega)
    [{ taskA with week := 2 }] [.moved (.str "a") (.num 2)] rfl

/-- Counterexample to claim C3 as stated: from a store satisfying the
week-range invariant, a move directive with `new_week` 99 produces a store
violating it — nothing clamps the written week to 1..8. -/
theorem week_range_counterexample :
    WeekRangeInv [taskA] ∧
    applyUpdate 1 0 [taskA]
      (.obj [("action", .str "move"), ("task_id", .str "a"),
             ("new_week", .num 99)]) =
      .ok ([{ taskA with week := 99 }], [.moved (.str "a") (.num 99)]) ∧
    ¬ WeekRangeInv [{ taskA with week := 99 }] :=
  ⟨by decide, rfl, by decide⟩

/-- Claim C2 (amended): the add branch synthesizes the id
"task-" ++ integer timestamp without consulting the existing id set, so id
uniqueness is preserved exactly when that token is absent from the
collection; under that freshness hypothesis the invariant is preserved. -/
theorem add_id_unique_conditional (cw ts : Int) (tasks : List PTask)
    (kvs : List (String × JValue))
    (ha : jgetD kvs "action" (.str "") = .str "add")
    (hn : (tasks.map PTask.id).Nodup)
    (hfresh : ("task-" ++ toString ts) ∉ tasks.map PTask.id) :
    ∀ tasks2 lg, applyUpdate cw ts tasks (.obj kvs) = .ok (tasks2, lg) →
      (tasks2.map PTask.id).Nodup := by
  intro tasks2 lg h
  cases hpy : pyInt (jgetD kvs "week" (.num cw)) with
  | error e => simp [applyUpdate, ha, hpy] at h
  | ok w =>
    simp [applyUpdate, ha, hpy] at h
    rcases h with ⟨h1, _⟩
    subst h1
    rw [List.map_append]
    refine List.Nodup.append hn (List.nodup_singleton _) ?_
    intro x hx hx2
    simp at hx2
    rw [hx2] at hx
    exact hfresh hx

/-- Witness for `add_id_unique_conditional`: adding at timestamp 7 to a
store not containing "task-7" keeps ids unique. -/
theorem add_id_unique_witness :
    (([taskA] ++ [addedTask7]).map PTask.id).Nodup :=
  add_id_unique_conditional 1 7 [taskA] [("action", .str "add")] rfl
    (by decide) (by decide)
    ([taskA] ++ [addedTask7]) [.added (.str "New Task")] rfl

/-- Counterexample to claim C2 as stated: against a store already containing
a task with id "task-100", an add applied at timestamp 100 synthesizes the
same id, so the resulting collection has duplicate ids. -/
theorem add_id_collision :
    applyUpdate 1 100 [taskT100]
      (.obj [("action", .str "add"), ("title", .str "X")]) =
      .ok ([taskT100,
            { id := "task-100", title := .str "X", week := 1,
              completed := false, priority := .str "medium", figure := .null,
              notes := .str "" }],
           [.added (.str "X")]) ∧
    ¬ (([taskT100,
         { id := "task-100", title := .str "X", week := 1, completed := false,
           priority := .str "medium", figure := .null,
           notes := .str "" }]).map PTask.id).Nodup :=
  ⟨rfl, by decide⟩

/-- Claim C1 (amended): a move directive whose `new_week` is absent (or
Python-falsy) is skipped silently — store unchanged, nothing raised, nothing
logged — and subsequent directives in the same batch are still applied; but
a move whose `new_week` is present, truthy and not int-coercible raises at
the first matching task (when `task_id` is truthy and resolvable), aborting
the remaining directives and failing the chat turn. -/
theorem move_new_week_behavior (cw ts : Int) (tasks : List PTask)
    (kvs : List (String × JValue))
    (hm : jgetD kvs "action" (.str "") = .str "move") :
    (pyTruthy (jgetN kvs "new_week") = false →
      applyUpdate cw ts tasks (.obj kvs) = .ok (tasks, []) ∧
      ∀ m rest tasks2 us lg, decodeCandidate m = some (.obj kvs) →
        processUpdates cw ts rest tasks = .ok (tasks2, us, lg) →
        processUpdates cw ts (m :: rest) tasks =
          .ok (tasks2, .obj kvs :: us, lg)) ∧
    (∀ e, pyTruthy (jgetN kvs "task_id") = true →
      pyTruthy (jgetN kvs "new_week") = true →
      (∃ t ∈ tasks, idEq (jgetN kvs "task_id") t = true) →
      pyInt (jgetN kvs "new_week") = .error e →
      applyUpdate cw ts tasks (.obj kvs) = .error e) := by
  constructor
  · intro hf
    have happ : applyUpdate cw ts tasks (.obj kvs) = .ok (tasks, []) := by
      simp [applyUpdate, hm, hf]
    refine ⟨happ, ?_⟩
    intro m rest tasks2 us lg hdec hrest
    simp [processUpdates, hdec, happ, hrest]
  · intro e ht htr hex hpy
    simp [applyUpdate, hm, ht, htr]
    exact moveLoop_err _ _ e hpy tasks hex

/-- Witness for `move_new_week_behavior`: an absent `new_week` is a silent
no-op while a complete after it still applies, and a non-numeric truthy
`new_week` raises. -/
theorem move_new_week_behavior_witness :
    (applyUpdate 1 0 [taskA]
      (.obj [("action", .str "move"), ("task_id", .str "a")]) =
      .ok ([taskA], [])) ∧
    (processUpdates 1 0
      ["\x7b\"action\":\"move\",\"task_id\":\"a\"\x7d",
       "\x7b\"action\":\"complete\",\"task_id\":\"a\"\x7d"] [taskA] =
      .ok ([{ taskA with completed := true }],
           [.obj [("action", .str "move"), ("task_id", .str "a")],
            .obj [("action", .str "complete"), ("task_id", .str "a")]],
           [.markedDone (.str "a")])) ∧
    (applyUpdate 1 0 [taskA]
      (.obj [("action", .str "move"), ("task_id", .str "a"),
             ("new_week", .str "x")]) =
      .error "ValueError: invalid literal for int() with base 10") :=
  ⟨((move_new_week_behavior 1 0 [taskA]
      [("action", .str "move"), ("task_id", .str "a")] rfl).1 rfl).1,
   ((move_new_week_behavior 1 0 [taskA]
      [("action", .str "move"), ("task_id", .str "a")] rfl).1 rfl).2
     "\x7b\"action\":\"move\",\"task_id\":\"a\"\x7d"
     ["\x7b\"action\":\"complete\",\"task_id\":\"a\"\x7d"]
     [{ taskA with completed := true }]
     [.obj [("action", .str "complete"), ("task_id", .str "a")]]
     [.markedDone (.str "a")] rfl rfl,
   (move_new_week_behavior 1 0 [taskA]
      [("action", .str "move"), ("task_id", .str "a"), ("new_week", .str "x")]
      rfl).2
     "ValueError: invalid literal for int() with base 10" rfl rfl
     ⟨taskA, List.mem_cons_self taskA [], rfl⟩ rfl⟩

/-- Counterexample to claim C1 as stated: with a resolvable `task_id` and
the non-numeric `new_week` "soon", the move directive raises; the chat turn
fails (`error = true`), the following complete directive is not applied, and
the persisted store is unchanged — not a logged no-op with the batch
continuing. -/
theorem chat_nonnumeric_move_fails_turn :
    chatHandler 0 0 "t" "hi" (some "k") (.ok badMoveReply) chatDataA =
      ({ response :=
           modelErrorMsg "ValueError: invalid literal for int() with base 10",
         task_updates := [], error := true }, chatDataA) :=
  rfl

theorem forall2_comp {α β γ : Type} {R : α → β → Prop} {S : β → γ → Prop} :
    ∀ {l1 : List α} {l2 : List β} {l3 : List γ},
      List.Forall₂ R l1 l2 → List.Forall₂ S l2 l3 →
      List.Forall₂ (fun a c => ∃ b, R a b ∧ S b c) l1 l3 := by
  intro l1 l2 l3 h1
  induction h1 generalizing l3 with
  | nil => intro h2; cases h2; exact List.Forall₂.nil
  | cons hab h1x ih =>
    intro h2
    cases h2 with
    | cons hbc h2x => exact List.Forall₂.cons ⟨_, hab, hbc⟩ (ih h2x)

theorem forall2_imp_mem {α β : Type} {R S : α → β → Prop} :
    ∀ {l1 : List α} {l2 : List β}, List.Forall₂ R l1 l2 →
      (∀ a ∈ l1, ∀ b, R a b → S a b) → List.Forall₂ S l1 l2 := by
  intro l1 l2 h
  induction h with
  | nil => intro _; exact List.Forall₂.nil
  | cons hab hx ih =>
    intro himp
    exact List.Forall₂.cons (himp _ (List.mem_cons_self _ _) _ hab)
      (ih fun a ha b hr => himp a (List.mem_cons_of_mem _ ha) b hr)

theorem forall2_mem_right {α β : Type} {R : α → β → Prop} :
    ∀ {l1 : List α} {l2 : List β}, List.Forall₂ R l1 l2 →
      ∀ b ∈ l2, ∃ a ∈ l1, R a b := by
  intro l1 l2 h
  induction h with
  | nil => intro b hb; simp at hb
  | cons hab hx ih =>
    intro b hb
    rcases List.mem_cons.mp hb with h1 | h1
    · subst h1; exact ⟨_, List.mem_cons_self _ _, hab⟩
    · rcases ih b h1 with ⟨a, ha, hr⟩
      exact ⟨a, List.mem_cons_of_mem _ ha, hr⟩

theorem forall2_mem_left {α β : Type} {R : α → β → Prop} :
    ∀ {l1 : List α} {l2 : List β}, List.Forall₂ R l1 l2 →
      ∀ a ∈ l1, ∃ b ∈ l2, R a b := by
  intro l1 l2 h
  induction h with
  | nil => intro a ha; simp at ha
  | cons hab hx ih =>
    intro a ha
    rcases List.mem_cons.mp ha with h1 | h1
    · subst h1; exact ⟨_, List.mem_cons_self _ _, hab⟩
    · rcases ih a h1 with ⟨b, hb, hr⟩
      exact ⟨b, List.mem_cons_of_mem _ hb, hr⟩

theorem setFirstWeek_map_id (tid : String) (w : Int) :
    ∀ tasks : List PTask,
      (setFirstWeek tid w tasks).map PTask.id = tasks.map PTask.id := by
  intro tasks
  induction tasks with
  | nil => rfl
  | cons t rest ih =>
    by_cases h : t.id = tid
    · simp [setFirstWeek, h]
    · simp [setFirstWeek, h, ih]

theorem setFirstWeek_rel (tid : String) (w : Int) :
    ∀ tasks : List PTask, (tasks.map PTask.id).Nodup →
      List.Forall₂ (fun t t2 =>
        (t.id ≠ tid ∧ t2 = t) ∨ (t.id = tid ∧ t2 = { t with week := w }))
        tasks (setFirstWeek tid w tasks) := by
  intro tasks
  induction tasks with
  | nil => intro _; exact List.Forall₂.nil
  | cons t rest ih =>
    intro hn
    rw [List.map_cons, List.nodup_cons] at hn
    obtain ⟨hni, hnr⟩ := hn
    by_cases h : t.id = tid
    · simp only [setFirstWeek, if_pos h]
      refine List.Forall₂.cons (Or.inr ⟨h, rfl⟩) ?_
      refine List.forall₂_same.mpr ?_
      intro s hs
      refine Or.inl ⟨?_, rfl⟩
      intro hs2
      have hmem : s.id ∈ rest.map PTask.id := List.mem_map_of_mem PTask.id hs
      rw [hs2, ← h] at hmem
      exact hni hmem
    · simp only [setFirstWeek, if_neg h]
      exact List.Forall₂.cons (Or.inl ⟨h, rfl⟩) (ih hnr)

theorem assignLoop_rel (tpw lo : Int) :
    ∀ (ids : List String) (tasks : List PTask) (week count : Int),
      (tasks.map PTask.id).Nodup → ids.Nodup → lo ≤ week → week ≤ 8 →
      List.Forall₂ (fun t t2 =>
        t2 = { t with week := t2.week } ∧
        (t.id ∈ ids → lo ≤ t2.week ∧ t2.week ≤ 8) ∧
        (t.id ∉ ids → t2 = t))
        tasks (assignLoop tpw ids tasks week count) := by
  intro ids
  induction ids with
  | nil =>
    intro tasks week count hn _ _ _
    simp only [assignLoop]
    refine List.forall₂_same.mpr ?_
    intro t _
    exact ⟨rfl, by simp, fun _ => rfl⟩
  | cons tid rest ih =>
    intro tasks week count hn hids hlo hhi
    obtain ⟨hhead, htail⟩ := List.nodup_cons.mp hids
    by_cases hany : tasks.any (fun t => decide (t.id = tid)) = true
    · have key : ∀ wk c2 : Int, lo ≤ wk → wk ≤ 8 →
          List.Forall₂ (fun t t2 =>
            t2 = { t with week := t2.week } ∧
            (t.id ∈ tid :: rest → lo ≤ t2.week ∧ t2.week ≤ 8) ∧
            (t.id ∉ tid :: rest → t2 = t))
            tasks (assignLoop tpw rest (setFirstWeek tid wk tasks) wk c2) := by
        intro wk c2 hlo2 hhi2
        have hrel1 := setFirstWeek_rel tid wk tasks hn
        have hn2 : ((setFirstWeek tid wk tasks).map PTask.id).Nodup := by
          rw [setFirstWeek_map_id]
          exact hn
        have hrel2 := ih (setFirstWeek tid wk tasks) wk c2 hn2 htail hlo2 hhi2
        have hcomp := forall2_comp hrel1 hrel2
        refine forall2_imp_mem hcomp ?_
        intro t htmem t2 hr
        rcases hr with ⟨b, hb1, hb2⟩
        rcases hb1 with ⟨hne, rfl⟩ | ⟨heq, rfl⟩
        · obtain ⟨he1, he2, he3⟩ := hb2
          refine ⟨he1, ?_, ?_⟩
          · intro hmem
            rcases List.mem_cons.mp hmem with h1 | h1
            · exact absurd h1 hne
            · exact he2 h1
          · intro hnmem
            exact he3 (fun hc => hnmem (List.mem_cons_of_mem _ hc))
        · obtain ⟨he1, he2, he3⟩ := hb2
          have hnot : ({ t with week := wk } : PTask).id ∉ rest := by
            show t.id ∉ rest
            rw [heq]
            exact hhead
          have ht2 : t2 = { t with week := wk } := he3 hnot
          subst ht2
          refine ⟨rfl, fun _ => ⟨hlo2, hhi2⟩, ?_⟩
          intro hnmem
          exact absurd (by rw [heq]; exact List.mem_cons_self tid rest) hnmem
      simp only [assignLoop]
      rw [if_pos hany]
      by_cases hb : (count ≥ tpw ∧ week < 8)
      · rw [if_pos hb]
        exact key (week + 1) 1 (by omega) (by omega)
      · rw [if_neg hb]
        exact key week (count + 1) hlo hhi
    · simp only [assignLoop]
      rw [if_neg hany]
      have hrel := ih tasks week count hn htail hlo hhi
      refine forall2_imp_mem hrel ?_
      intro t htmem t2 hr
      obtain ⟨he1, he2, he3⟩ := hr
      have htid : t.id ≠ tid := by
        intro hc
        exact hany (List.any_eq_true.mpr ⟨t, htmem, by simp [hc]⟩)
      refine ⟨he1, ?_, ?_⟩
      · intro hmem
        rcases List.mem_cons.mp hmem with h1 | h1
        · exact absurd h1 htid
        · exact he2 h1
      · intro hnmem
        exact he3 (fun hc => hnmem (List.mem_cons_of_mem _ hc))

theorem currentWeekOf_bounds (d : Int) :
    1 ≤ currentWeekOf d ∧ currentWeekOf d ≤ 8 := by
  unfold currentWeekOf
  exact ⟨le_max_left 1 _, max_le (by norm_num) (min_le_left 8 _)⟩

/-- Claim C7 (amended): assuming the id-uniqueness invariant of the store,
after `auto_adjust` the week of every incomplete task lies between the computed
current week and TOTAL_WEEKS = 8; completed tasks are untouched, so a
completed task whose week already exceeds 8 keeps it — the cap holds for all
tasks only when completed tasks already satisfy it. -/
theorem autoAdjust_week_bounds (days : Int) (tasks : List PTask)
    (hn : (tasks.map PTask.id).Nodup) :
    (∀ t2 ∈ autoAdjust days tasks, t2.completed = false →
      currentWeekOf days ≤ t2.week ∧ t2.week ≤ 8) ∧
    (∀ t ∈ tasks, t.completed = true → t ∈ autoAdjust days tasks) := by
  have hcw := currentWeekOf_bounds days
  simp only [autoAdjust]
  set cw := currentWeekOf days with hcwdef
  set tasks1 := tasks.map (fun t =>
    if t.completed = false ∧ t.week < cw then { t with week := cw } else t)
    with htasks1
  set incomplete := tasks1.filter (fun t =>
    !t.completed && decide (t.week ≥ cw)) with hinc
  have hmap_id : tasks1.map PTask.id = tasks.map PTask.id := by
    rw [htasks1, List.map_map]
    apply List.map_congr_left
    intro t _
    by_cases h : t.completed = false ∧ t.week < cw
    · simp [h, Function.comp]
    · simp [h, Function.comp]
  have hn1 : (tasks1.map PTask.id).Nodup := by rw [hmap_id]; exact hn
  have hpull_lb : ∀ t1 ∈ tasks1, t1.completed = false → cw ≤ t1.week := by
    intro t1 ht1 hc
    rw [htasks1] at ht1
    rcases List.mem_map.mp ht1 with ⟨t, _, hft⟩
    by_cases h : t.completed = false ∧ t.week < cw
    · rw [if_pos h] at hft
      rw [← hft]
    · rw [if_neg h] at hft
      subst hft
      exact le_of_not_lt (not_and.mp h hc)
  have hcompleted_mem : ∀ t ∈ tasks, t.completed = true → t ∈ tasks1 := by
    intro t ht hc
    rw [htasks1]
    have heq : (if t.completed = false ∧ t.week < cw
        then { t with week := cw } else t) = t := by
      rw [if_neg]
      intro h1
      rw [hc] at h1
      exact absurd h1.1 (by simp)
    rw [← heq]
    exact List.mem_map_of_mem _ ht
  by_cases hguard : ((8:Int) - cw + 1 > 0 ∧ incomplete.length > 0)
  · rw [if_pos hguard]
    have hperm : (incomplete.mergeSort keyLe).Perm incomplete :=
      List.mergeSort_perm incomplete keyLe
    have hids_perm : ((incomplete.mergeSort keyLe).map PTask.id).Perm
        (incomplete.map PTask.id) := hperm.map PTask.id
    have hinc_nodup : (incomplete.map PTask.id).Nodup := by
      have hsub : incomplete.Sublist tasks1 := by
        rw [hinc]
        exact List.filter_sublist tasks1
      exact hn1.sublist (hsub.map PTask.id)
    have hids_nodup : ((incomplete.mergeSort keyLe).map PTask.id).Nodup :=
      (hids_perm.nodup_iff).mpr hinc_nodup
    have hmem_ids : ∀ t1 ∈ tasks1, t1.completed = false →
        t1.id ∈ (incomplete.mergeSort keyLe).map PTask.id := by
      intro t1 ht1 hc
      have hw : cw ≤ t1.week := hpull_lb t1 ht1 hc
      have hmem : t1 ∈ incomplete := by
        rw [hinc]
        refine List.mem_filter.mpr ⟨ht1, ?_⟩
        simp [hc, hw]
      exact (hids_perm.mem_iff).mpr (List.mem_map_of_mem _ hmem)
    have hM := assignLoop_rel
      (max 3 ((incomplete.length : Int).fdiv (8 - cw + 1))) cw
      ((incomplete.mergeSort keyLe).map PTask.id) tasks1 cw 0
      hn1 hids_nodup (le_refl cw) hcw.2
    constructor
    · intro t2 ht2 hc2
      rcases forall2_mem_right hM t2 ht2 with ⟨t1, ht1, hr⟩
      obtain ⟨he1, he2, _⟩ := hr
      have hc1 : t1.completed = false := by
        have : t2.completed = t1.completed := by rw [he1]
        rw [← this]
        exact hc2
      exact he2 (hmem_ids t1 ht1 hc1)
    · intro t ht hc
      have ht1 : t ∈ tasks1 := hcompleted_mem t ht hc
      rcases forall2_mem_left hM t ht1 with ⟨t2, ht2, hr⟩
      obtain ⟨_, _, he3⟩ := hr
      have hnotin : t.id ∉ (incomplete.mergeSort keyLe).map PTask.id := by
        intro hin
        have h2 : t.id ∈ incomplete.map PTask.id := (hids_perm.mem_iff).mp hin
        rcases List.mem_map.mp h2 with ⟨s, hsmem, hsid⟩
        have hsparts := List.mem_filter.mp (hinc ▸ hsmem)
        have hs1 : s ∈ tasks1 := hsparts.1
        have hsc : s.completed = false := by
          have hb := hsparts.2
          simp only [Bool.and_eq_true, Bool.not_eq_true'] at hb
          exact hb.1
        have hst : s = t := List.inj_on_of_nodup_map hn1 hs1 ht1 hsid
        rw [hst, hc] at hsc
        exact absurd hsc (by simp)
      have ht2eq : t2 = t := he3 hnotin
      rw [ht2eq] at ht2
      exact ht2
  · rw [if_neg hguard]
    constructor
    · intro t2 ht2 hc2
      have hwr : (0:Int) < 8 - cw + 1 := by omega
      have hlen : ¬(incomplete.length > 0) := fun hl => hguard ⟨hwr, hl⟩
      have hempty : incomplete = [] := by
        cases hq : incomplete with
        | nil => rfl
        | cons a l => rw [hq] at hlen; simp at hlen
      have hw : cw ≤ t2.week := hpull_lb t2 ht2 hc2
      have hmem : t2 ∈ incomplete := by
        rw [hinc]
        exact List.mem_filter.mpr ⟨ht2, by simp [hc2, hw]⟩
      rw [hempty] at hmem
      simp at hmem
    · intro t ht hc
      exact hcompleted_mem t ht hc

/-- Witness for `autoAdjust_week_bounds`: a completed task is still present,
unchanged, after auto-adjust. -/
theorem autoAdjust_week_bounds_witness :
    taskDone99 ∈ autoAdjust 0 [taskDone99] :=
  (autoAdjust_week_bounds 0 [taskDone99] (by decide)).2 taskDone99
    (List.mem_cons_self taskDone99 []) rfl

/-- Counterexample to claim C7 as stated: auto-adjust leaves a completed
task with week 99 untouched, so after redistribution a task week still
exceeds TOTAL_WEEKS = 8, contradicting the unconditional cap. -/
theorem autoAdjust_cap_counterexample :
    autoAdjust 0 [taskDone99] = [taskDone99] ∧
    taskDone99.completed = true ∧ taskDone99.week > 8 :=
  ⟨rfl, rfl, by decide⟩

/-- Witness for `chat_failure_path_safe`: a concrete chat invocation with no
resolvable credential. -/
theorem chat_failure_path_witness :
    chatHandler 0 0 "t" "m" none (.ok "x") chatDataA =
      ({ response := apiKeyMissingMsg, task_updates := [], error := true },
       chatDataA) :=
  (chat_failure_path_safe 0 0 "t" "m" chatDataA).1 (.ok "x")
